import Mathlib

/-!
Verification development for the DiscordTranslator repository.

The embedding models JavaScript strings as lists of characters.  The
pieces modelled are, following the source files:

* the fingerprint function (src mysql module, hashMessage): the digest of
  the lower-cased, trimmed message text.  The SHA-256 digest itself is a
  call into the runtime library, so the digest is a parameter of the
  embedding; every property proved holds for an arbitrary digest function.
* the history store (mysql module): three tables, the lookup operation
  (getTranslationFromHistory), the save operation
  (saveTranslationToHistory), the user upsert (saveDiscordUser), user-data
  deletion and the retention purge.
* the model client part of translate (gemini module): code-fence
  stripping, the strict JSON parse, the key-quoting repair pass, and the
  defaulted extraction of the three result fields.
* the orchestrator translate (gemini module), composing lookup, model
  call and save.  The external model reply and the possibility of the
  store write raising are oracle parameters.
-/

set_option maxRecDepth 4000

namespace DiscordTranslator

/-- A JavaScript string, modelled as its list of characters. -/
abbrev JStr := List Char

/-- The character class removed by the JavaScript trim method and matched
by the regex whitespace class: tab, line feed, vertical tab, form feed,
carriage return, space, no-break space, the Unicode space separators, the
line and paragraph separators and the byte-order mark. -/
def jsIsWS (c : Char) : Bool :=
  c.toNat = 9 || c.toNat = 10 || c.toNat = 11 || c.toNat = 12 ||
  c.toNat = 13 || c.toNat = 32 || c.toNat = 160 || c.toNat = 5760 ||
  (8192 ≤ c.toNat && c.toNat ≤ 8202) || c.toNat = 8232 ||
  c.toNat = 8233 || c.toNat = 8239 || c.toNat = 8287 ||
  c.toNat = 12288 || c.toNat = 65279

/-- One character of the toLowerCase method.  The model maps the ASCII
uppercase letters to lowercase and leaves every other character alone
(the source strings in play are ASCII). -/
def jsToLowerChar (c : Char) : Char :=
  if 65 ≤ c.toNat ∧ c.toNat ≤ 90 then Char.ofNat (c.toNat + 32) else c

/-- The toLowerCase method of a JavaScript string. -/
def jsToLower (s : JStr) : JStr := s.map jsToLowerChar

/-- The trim method of a JavaScript string: drop whitespace from both
ends. -/
def jsTrim (s : JStr) : JStr :=
  ((s.dropWhile jsIsWS).reverse.dropWhile jsIsWS).reverse

/-- hashMessage from the mysql module: digest of the lower-cased, trimmed
message.  The SHA-256 digest performed by the runtime is the parameter
digest. -/
def hashMessage (digest : JStr → JStr) (message : JStr) : JStr :=
  digest (jsTrim (jsToLower message))

/-- Converting a small valid code point to a character and back is the
identity. -/
theorem toNat_ofNat_small (n : Nat) (h : n < 55296) :
    (Char.ofNat n).toNat = n := by
  have hv : n.isValidChar := Or.inl h
  rw [Char.ofNat, dif_pos hv]
  rfl

/-- Lowering a character does not change whether it is whitespace. -/
theorem jsIsWS_jsToLowerChar (c : Char) :
    jsIsWS (jsToLowerChar c) = jsIsWS c := by
  unfold jsToLowerChar
  split
  · next h =>
    have hv : (Char.ofNat (c.toNat + 32)).toNat = c.toNat + 32 :=
      toNat_ofNat_small _ (by omega)
    unfold jsIsWS
    rw [hv]
    have h1 : 65 ≤ c.toNat := h.1
    have h2 : c.toNat ≤ 90 := h.2
    rw [Bool.eq_iff_iff]
    simp only [Bool.or_eq_true, decide_eq_true_eq, Bool.and_eq_true]
    constructor <;> intro hc <;> omega
  · rfl

/-- Dropping leading whitespace commutes with lower-casing. -/
theorem dropWhile_jsToLower (s : JStr) :
    (jsToLower s).dropWhile jsIsWS = jsToLower (s.dropWhile jsIsWS) := by
  induction s with
  | nil => rfl
  | cons c cs ih =>
    simp only [jsToLower, List.map_cons, List.dropWhile_cons,
      jsIsWS_jsToLowerChar]
    by_cases h : jsIsWS c = true
    · simpa [h, jsToLower] using ih
    · simp [h, jsToLower]

/-- Trimming commutes with lower-casing. -/
theorem jsTrim_jsToLower (s : JStr) :
    jsTrim (jsToLower s) = jsToLower (jsTrim s) := by
  unfold jsTrim
  rw [dropWhile_jsToLower]
  rw [show (jsToLower (s.dropWhile jsIsWS)).reverse
        = jsToLower (s.dropWhile jsIsWS).reverse by
    simp [jsToLower]]
  rw [dropWhile_jsToLower]
  simp [jsToLower]

/-! ## JSON values and the parse used by the model client

The gemini module calls the runtime JSON.parse on the cleaned reply.  The
embedding implements that parser over character lists.  Numbers are kept
as their lexemes (no field of the reply is numeric in any claim), object
fields keep their textual order and a duplicated key resolves to the last
occurrence, as in the runtime. -/

/-- A parsed JSON value. -/
inductive Json where
  | null : Json
  | bool (b : Bool) : Json
  | num (lexeme : JStr) : Json
  | str (s : JStr) : Json
  | arr (elems : List Json) : Json
  | obj (fields : List (JStr × Json)) : Json

/-- JSON insignificant whitespace: space, tab, line feed, carriage
return. -/
def jsonWsChar (c : Char) : Bool :=
  c.toNat = 32 || c.toNat = 9 || c.toNat = 10 || c.toNat = 13

/-- Skip JSON whitespace. -/
def skipJsonWs (s : JStr) : JStr := s.dropWhile jsonWsChar

/-- Value of one hexadecimal digit. -/
def hexVal (c : Char) : Option Nat :=
  if 48 ≤ c.toNat ∧ c.toNat ≤ 57 then some (c.toNat - 48)
  else if 97 ≤ c.toNat ∧ c.toNat ≤ 102 then some (c.toNat - 87)
  else if 65 ≤ c.toNat ∧ c.toNat ≤ 70 then some (c.toNat - 55)
  else none

/-- Parse four hexadecimal digits of a unicode escape. -/
def parseHex4 : JStr → Option (Nat × JStr)
  | a :: b :: c :: d :: rest =>
    match hexVal a, hexVal b, hexVal c, hexVal d with
    | some x, some y, some z, some w =>
      some (((x * 16 + y) * 16 + z) * 16 + w, rest)
    | _, _, _, _ => none
  | _ => none

/-- Parse the body of a JSON string after the opening quote; returns the
decoded characters and the input after the closing quote.  Unescaped
control characters are rejected, as in the runtime parser.  A unicode
escape becomes the character of its code (surrogate halves are not
recombined; no claim uses them). -/
def parseStringBody : Nat → JStr → Option (JStr × JStr)
  | _, '"' :: rest => some ([], rest)
  | fuel + 1, '\\' :: e :: rest =>
    match e with
    | '"' => (parseStringBody fuel rest).map (fun p => ('"' :: p.1, p.2))
    | '\\' => (parseStringBody fuel rest).map (fun p => ('\\' :: p.1, p.2))
    | '/' => (parseStringBody fuel rest).map (fun p => ('/' :: p.1, p.2))
    | 'b' => (parseStringBody fuel rest).map (fun p => ('\x08' :: p.1, p.2))
    | 'f' => (parseStringBody fuel rest).map (fun p => ('\x0c' :: p.1, p.2))
    | 'n' => (parseStringBody fuel rest).map (fun p => ('\n' :: p.1, p.2))
    | 'r' => (parseStringBody fuel rest).map (fun p => ('\x0d' :: p.1, p.2))
    | 't' => (parseStringBody fuel rest).map (fun p => ('\t' :: p.1, p.2))
    | 'u' =>
      match parseHex4 rest with
      | some (n, r2) =>
        (parseStringBody fuel r2).map (fun p => (Char.ofNat n :: p.1, p.2))
      | none => none
    | _ => none
  | fuel + 1, c :: rest =>
    if c.toNat < 32 then none
    else (parseStringBody fuel rest).map (fun p => (c :: p.1, p.2))
  | _, _ => none

/-- Is the character an ASCII decimal digit. -/
def isDigitChar (c : Char) : Bool := 48 ≤ c.toNat && c.toNat ≤ 57

/-- Parse the digits-only part of a number; requires at least one
digit. -/
def parseDigits1 (s : JStr) : Option (JStr × JStr) :=
  let ds := s.takeWhile isDigitChar
  if ds.isEmpty then none else some (ds, s.dropWhile isDigitChar)

/-- Parse a JSON number, returning its lexeme.  The integer part is a
single zero or a nonzero digit followed by digits; the fraction and
exponent parts each require at least one digit. -/
def parseNumber (s : JStr) : Option (JStr × JStr) :=
  let signPart : JStr × JStr :=
    match s with
    | '-' :: r => (['-'], r)
    | _ => ([], s)
  match signPart.2 with
  | [] => none
  | c :: r =>
    let intResult : Option (JStr × JStr) :=
      if c = '0' then
        match r with
        | d :: _ => if isDigitChar d then none else some (['0'], r)
        | [] => some (['0'], r)
      else if isDigitChar c then
        some (c :: r.takeWhile isDigitChar, r.dropWhile isDigitChar)
      else none
    match intResult with
    | none => none
    | some (intPart, afterInt) =>
      let fracResult : Option (JStr × JStr) :=
        match afterInt with
        | '.' :: r2 =>
          match parseDigits1 r2 with
          | some (ds, r3) => some ('.' :: ds, r3)
          | none => none
        | _ => some ([], afterInt)
      match fracResult with
      | none => none
      | some (fracPart, afterFrac) =>
        let expResult : Option (JStr × JStr) :=
          match afterFrac with
          | 'e' :: r2 =>
            match r2 with
            | '+' :: r3 =>
              match parseDigits1 r3 with
              | some (ds, r4) => some ('e' :: '+' :: ds, r4)
              | none => none
            | '-' :: r3 =>
              match parseDigits1 r3 with
              | some (ds, r4) => some ('e' :: '-' :: ds, r4)
              | none => none
            | _ =>
              match parseDigits1 r2 with
              | some (ds, r4) => some ('e' :: ds, r4)
              | none => none
          | 'E' :: r2 =>
            match r2 with
            | '+' :: r3 =>
              match parseDigits1 r3 with
              | some (ds, r4) => some ('E' :: '+' :: ds, r4)
              | none => none
            | '-' :: r3 =>
              match parseDigits1 r3 with
              | some (ds, r4) => some ('E' :: '-' :: ds, r4)
              | none => none
            | _ =>
              match parseDigits1 r2 with
              | some (ds, r4) => some ('E' :: ds, r4)
              | none => none
          | _ => some ([], afterFrac)
        match expResult with
        | none => none
        | some (expPart, afterExp) =>
          some (signPart.1 ++ intPart ++ fracPart ++ expPart, afterExp)

mutual

/-- Recursive-descent parse of one JSON value. -/
def parseValue : Nat → JStr → Option (Json × JStr)
  | 0, _ => none
  | fuel + 1, s =>
    match skipJsonWs s with
    | [] => none
    | c :: rest =>
      if c = '"' then
        (parseStringBody (rest.length + 1) rest).map
          (fun p => (Json.str p.1, p.2))
      else if c = '{' then
        match skipJsonWs rest with
        | '}' :: r2 => some (Json.obj [], r2)
        | r2 => (parseMembers fuel r2).map (fun p => (Json.obj p.1, p.2))
      else if c = '[' then
        match skipJsonWs rest with
        | ']' :: r2 => some (Json.arr [], r2)
        | r2 => (parseElems fuel r2).map (fun p => (Json.arr p.1, p.2))
      else
        match c :: rest with
        | 't' :: 'r' :: 'u' :: 'e' :: r2 => some (Json.bool true, r2)
        | 'f' :: 'a' :: 'l' :: 's' :: 'e' :: r2 => some (Json.bool false, r2)
        | 'n' :: 'u' :: 'l' :: 'l' :: r2 => some (Json.null, r2)
        | s2 => (parseNumber s2).map (fun p => (Json.num p.1, p.2))

/-- Parse the members of an object, positioned at the first key; consumes
the closing brace. -/
def parseMembers : Nat → JStr → Option (List (JStr × Json) × JStr)
  | 0, _ => none
  | fuel + 1, s =>
    match skipJsonWs s with
    | '"' :: rest =>
      match parseStringBody (rest.length + 1) rest with
      | some (key, afterKey) =>
        match skipJsonWs afterKey with
        | ':' :: afterColon =>
          match parseValue fuel afterColon with
          | some (v, afterVal) =>
            match skipJsonWs afterVal with
            | ',' :: r2 =>
              (parseMembers fuel r2).map
                (fun p => ((key, v) :: p.1, p.2))
            | '}' :: r2 => some ([(key, v)], r2)
            | _ => none
          | none => none
        | _ => none
      | none => none
    | _ => none

/-- Parse the elements of an array, positioned at the first element;
consumes the closing bracket. -/
def parseElems : Nat → JStr → Option (List Json × JStr)
  | 0, _ => none
  | fuel + 1, s =>
    match parseValue fuel s with
    | some (v, afterVal) =>
      match skipJsonWs afterVal with
      | ',' :: r2 => (parseElems fuel r2).map (fun p => (v :: p.1, p.2))
      | ']' :: r2 => some ([v], r2)
      | _ => none
    | none => none

end

/-- JSON.parse of the runtime: a single value with only whitespace
around it, or failure. -/
def jsonParse (s : JStr) : Option Json :=
  match parseValue (s.length + 2) s with
  | some (j, rest) => if skipJsonWs rest = [] then some j else none
  | none => none

/-! ## The model client of the gemini module -/

/-- The code-fence character (code point 96). -/
def backtick : Char := Char.ofNat 96

/-- Global replacement of every fence marker by the empty string, as in
the replace call of the gemini module: at each position the longer
marker, three fence characters followed by the word json, is preferred
over the bare three fence characters. -/
def stripFencesAux : Nat → JStr → JStr
  | 0, s => s
  | _ + 1, [] => []
  | fuel + 1, c :: rest =>
    if c = backtick then
      match rest with
      | c2 :: c3 :: 'j' :: 's' :: 'o' :: 'n' :: r2 =>
        if c2 = backtick ∧ c3 = backtick then stripFencesAux fuel r2
        else c :: stripFencesAux fuel rest
      | c2 :: c3 :: r2 =>
        if c2 = backtick ∧ c3 = backtick then stripFencesAux fuel r2
        else c :: stripFencesAux fuel rest
      | _ => c :: stripFencesAux fuel rest
    else c :: stripFencesAux fuel rest

/-- Remove every fence marker from the text. -/
def stripFences (s : JStr) : JStr := stripFencesAux s.length s

/-- The word-character class of the repair regex: ASCII letters, digits
and the underscore. -/
def isWordChar (c : Char) : Bool :=
  (48 ≤ c.toNat && c.toNat ≤ 57) || (65 ≤ c.toNat && c.toNat ≤ 90) ||
  (97 ≤ c.toNat && c.toNat ≤ 122) || c.toNat = 95

/-- Match optional whitespace followed by a colon; returns the rest. -/
def matchWsColon : JStr → Option JStr
  | [] => none
  | c :: rest =>
    if c = ':' then some rest
    else if jsIsWS c then matchWsColon rest
    else none

/-- Match the repair pattern of the gemini module at the head of the
input: an optional quote, a nonempty run of word characters, an optional
repeat of the captured quote, whitespace, then a colon.  Returns the
captured word run and the input after the match.  The greedy choices of
the runtime regex engine collapse to this deterministic form: giving
back word characters or the quote repeat can never make the rest of the
pattern match, because a word character is neither a quote, whitespace
nor a colon, and a quote is neither whitespace nor a colon. -/
def matchKeyAt (s : JStr) : Option (JStr × JStr) :=
  match s with
  | [] => none
  | c :: rest =>
    if c = '\'' ∨ c = '"' then
      let w := rest.takeWhile isWordChar
      if w.isEmpty then none
      else
        let after := rest.dropWhile isWordChar
        let afterQuote : JStr :=
          match after with
          | d :: ds => if d = c then ds else after
          | [] => after
        (matchWsColon afterQuote).map (fun r => (w, r))
    else if isWordChar c then
      (matchWsColon ((c :: rest).dropWhile isWordChar)).map
        (fun r => ((c :: rest).takeWhile isWordChar, r))
    else none

/-- Global replacement for the repair regex: every match is rewritten to
the captured word run in double quotes followed by a colon. -/
def repairKeysAux : Nat → JStr → JStr
  | 0, s => s
  | _ + 1, [] => []
  | fuel + 1, c :: rest =>
    match matchKeyAt (c :: rest) with
    | some (w, r) => '"' :: (w ++ '"' :: ':' :: repairKeysAux fuel r)
    | none => c :: repairKeysAux fuel rest

/-- The repair pass of the gemini module: quote bare or partially quoted
keys. -/
def repairKeys (s : JStr) : JStr := repairKeysAux s.length s

/-- The result record produced by translate in the gemini module. -/
structure TranslationResult where
  original_message : JStr
  translated_message : JStr
  detected_language : JStr
  from_cache : Bool
deriving DecidableEq, Repr

/-- The failures translate can raise.  parseFailure carries the raw
reply text, as the thrown message does; parseFailureNoText is the case
of an absent reply text, where the thrown message carries the
stringified parse error instead; nullReply is the TypeError raised by
reading a field of a null parse result; storeFailure is a rejection
propagated from the store write. -/
inductive TransError where
  | parseFailure (raw : JStr) : TransError
  | parseFailureNoText : TransError
  | nullReply : TransError
  | storeFailure : TransError
deriving DecidableEq, Repr

/-- Last-occurrence field lookup of a parsed object, matching runtime
object construction where a duplicated key keeps its last value. -/
def lookupField (fields : List (JStr × Json)) (key : JStr) : Option Json :=
  fields.foldl (fun acc kv => if kv.1 = key then some kv.2 else acc) none

/-- The defaulting field read used on the parse result: an absent or
null field falls back to the default.  A present field of the reply is a
string by the declared type of the parse result; a value of another
shape is modelled as the default. -/
def fieldOrDefault (fields : List (JStr × Json)) (key dflt : JStr) : JStr :=
  match lookupField fields key with
  | some (Json.str s) => s
  | _ => dflt

/-- Build the result record from the parse result, as the gemini module
does: each missing field falls back, original and translated to the
submitted message, detected language to the unknown sentinel.  A null
parse result raises a TypeError at the first field read. -/
def extractResult (j : Json) (message : JStr) : Option TranslationResult :=
  match j with
  | Json.null => none
  | Json.obj fields =>
    some
      { original_message :=
          fieldOrDefault fields ("original_message".toList) message
        translated_message :=
          fieldOrDefault fields ("translated_message".toList) message
        detected_language :=
          fieldOrDefault fields ("detected_language".toList)
            ("unknown".toList)
        from_cache := false }
  | _ =>
    some
      { original_message := message
        translated_message := message
        detected_language := "unknown".toList
        from_cache := false }

/-- The cleaned reply text: the raw text trimmed, fence markers removed,
trimmed again. -/
def cleanedTextOf (raw : JStr) : JStr := jsTrim (stripFences (jsTrim raw))

/-- The model client portion of translate: clean the reply, attempt the
strict parse, on failure attempt the parse of the repaired text, then
build the result record.  The reply text is the oracle for the external
model call. -/
def modelClient (replyText : Option JStr) (message : JStr) :
    Except TransError TranslationResult :=
  let cleaned := cleanedTextOf (replyText.getD [])
  let parsed : Option Json :=
    match jsonParse cleaned with
    | some j => some j
    | none => jsonParse (repairKeys cleaned)
  match parsed with
  | some j =>
    match extractResult j message with
    | some r => Except.ok r
    | none => Except.error TransError.nullReply
  | none =>
    match replyText with
    | some t => Except.error (TransError.parseFailure t)
    | none => Except.error TransError.parseFailureNoText

/-! ## The history store of the mysql module

Tables are lists of rows in insertion order; auto-increment keys are the
counters of the state; every timestamp column is a logical instant
passed to the operation that stamps it. -/

/-- A row of the translation_history table. -/
structure CacheRow where
  id : Nat
  original_message : JStr
  original_message_hash : JStr
  target_language : JStr
  detected_language : Option JStr
  translated_message : JStr
  created_at : Nat
  updated_at : Nat
  use_count : Nat
deriving DecidableEq, Repr

/-- A row of the discord_user table.  The caller-supplied identifier is
kept as the string the code passes to the driver. -/
structure DiscordUser where
  id : JStr
  username : JStr
  created_at : Nat
  updated_at : Nat
deriving DecidableEq, Repr

/-- A row of the history table, linking a user to a cache entry. -/
structure HistoryRow where
  id : Nat
  discord_id : JStr
  message_id : Nat
  created_at : Nat
deriving DecidableEq, Repr

/-- The store state: the three tables and the next auto-increment keys. -/
structure DB where
  translation_history : List CacheRow
  discord_user : List DiscordUser
  history : List HistoryRow
  nextTransId : Nat
  nextHistId : Nat
deriving DecidableEq, Repr

/-- The empty store produced by initDatabase. -/
def emptyDB : DB :=
  { translation_history := []
    discord_user := []
    history := []
    nextTransId := 1
    nextHistId := 1 }

/-- The where clause shared by the lookup and the save: hash and target
language both equal. -/
def rowMatches (messageHash lang : JStr) (r : CacheRow) : Bool :=
  decide (r.original_message_hash = messageHash ∧ r.target_language = lang)

/-- The rows the select of the lookup and of the save returns: hash of
the message and lower-cased target language both equal. -/
def selectByHashLang (digest : JStr → JStr) (db : DB)
    (message targetLanguage : JStr) : List CacheRow :=
  db.translation_history.filter
    (rowMatches (hashMessage digest message) (jsToLower targetLanguage))

/-- The better row under the order clause of the lookup: higher use
count first, then more recent update. -/
def betterRow (acc x : CacheRow) : CacheRow :=
  if acc.use_count < x.use_count ∨
      (x.use_count = acc.use_count ∧ acc.updated_at < x.updated_at)
  then x else acc

/-- The first row under the order clause: by descending use count, then
descending update instant. -/
def selectTopRow : List CacheRow → Option CacheRow
  | [] => none
  | r :: rs => some (rs.foldl betterRow r)

/-- getTranslationFromHistory: select the matching rows ordered by use
count then update instant, take the first; on a hit, increment its use
count and refresh its update instant, and return the row as read before
that update.  On a miss the state is untouched. -/
def getTranslationFromHistory (digest : JStr → JStr) (db : DB) (now : Nat)
    (message targetLanguage : JStr) : Option CacheRow × DB :=
  match selectTopRow (selectByHashLang digest db message targetLanguage) with
  | none => (none, db)
  | some row =>
    (some row,
      { db with
        translation_history :=
          db.translation_history.map fun r =>
            if r.id = row.id then
              { r with use_count := r.use_count + 1, updated_at := now }
            else r })

/-- saveDiscordUser: insert the user or, on a duplicate key, overwrite
the username and refresh the update instant. -/
def saveDiscordUser (db : DB) (now : Nat) (discordId username : JStr) :
    DB :=
  if db.discord_user.any (fun u => decide (u.id = discordId)) then
    { db with
      discord_user :=
        db.discord_user.map fun u =>
          if u.id = discordId then
            { u with username := username, updated_at := now }
          else u }
  else
    { db with
      discord_user :=
        db.discord_user ++
          [{ id := discordId, username := username, created_at := now,
             updated_at := now }] }

/-- The truthiness test the save applies to the optional user fields: a
link is attempted only when both the identifier and the username are
present and nonempty strings. -/
def truthyPair : Option JStr → Option JStr → Option (JStr × JStr)
  | some uid, some uname =>
    if uid.isEmpty ∨ uname.isEmpty then none else some (uid, uname)
  | _, _ => none

/-- The user-attribution tail of the save after inserting a fresh row:
upsert the user, then insert the link row with no existence check. -/
def linkUserAfterInsert (db : DB) (now : Nat) (uid uname : JStr)
    (messageId : Nat) : DB :=
  let db2 := saveDiscordUser db now uid uname
  { db2 with
    history :=
      db2.history ++
        [{ id := db2.nextHistId, discord_id := uid,
           message_id := messageId, created_at := now }]
    nextHistId := db2.nextHistId + 1 }

/-- The user-attribution tail of the save after updating an existing
row: upsert the user, then insert the link row only when no link for
the pair exists yet. -/
def linkUserAfterUpdate (db : DB) (now : Nat) (uid uname : JStr)
    (messageId : Nat) : DB :=
  let db2 := saveDiscordUser db now uid uname
  if db2.history.any
      (fun h => decide (h.discord_id = uid ∧ h.message_id = messageId))
  then db2
  else
    { db2 with
      history :=
        db2.history ++
          [{ id := db2.nextHistId, discord_id := uid,
             message_id := messageId, created_at := now }]
      nextHistId := db2.nextHistId + 1 }

/-- The existence check the save runs first: the select of the matching
rows. -/
def saveExistingCheck (digest : JStr → JStr) (db : DB)
    (originalMessage targetLanguage : JStr) : List CacheRow :=
  selectByHashLang digest db originalMessage targetLanguage

/-- The write phase of saveTranslationToHistory, given the result of the
existence check.  When the check produced a row, that row is updated in
place (text, detected language, use count, update instant) and a user
link is added only when none exists for the pair; when the check was
empty, a fresh row with use count one is inserted and a user link is
added without an existence check.  The function returns the unit value:
the source returns a promise of void. -/
def saveGivenCheck (digest : JStr → JStr) (db : DB) (now : Nat)
    (originalMessage targetLanguage detectedLanguage translatedMessage :
      JStr)
    (discordId username : Option JStr) (existing : List CacheRow) :
    Unit × DB :=
  let messageHash := hashMessage digest originalMessage
  let lang := jsToLower targetLanguage
  match existing with
  | [] =>
    let newRow : CacheRow :=
      { id := db.nextTransId
        original_message := originalMessage
        original_message_hash := messageHash
        target_language := lang
        detected_language := some detectedLanguage
        translated_message := translatedMessage
        created_at := now
        updated_at := now
        use_count := 1 }
    let db1 : DB :=
      { db with
        translation_history := db.translation_history ++ [newRow]
        nextTransId := db.nextTransId + 1 }
    match truthyPair discordId username with
    | some (uid, uname) =>
      ((), linkUserAfterInsert db1 now uid uname newRow.id)
    | none => ((), db1)
  | e0 :: _ =>
    let db1 : DB :=
      { db with
        translation_history :=
          db.translation_history.map fun r =>
            if r.id = e0.id then
              { r with
                translated_message := translatedMessage
                detected_language := some detectedLanguage
                use_count := r.use_count + 1
                updated_at := now }
            else r }
    match truthyPair discordId username with
    | some (uid, uname) =>
      ((), linkUserAfterUpdate db1 now uid uname e0.id)
    | none => ((), db1)

/-- saveTranslationToHistory: the existence check followed by the write
phase. -/
def saveTranslationToHistory (digest : JStr → JStr) (db : DB) (now : Nat)
    (originalMessage targetLanguage detectedLanguage translatedMessage :
      JStr)
    (discordId username : Option JStr) : Unit × DB :=
  saveGivenCheck digest db now originalMessage targetLanguage
    detectedLanguage translatedMessage discordId username
    (saveExistingCheck digest db originalMessage targetLanguage)

/-- deleteUserData: remove the links of the user, then the user row;
cache entries are untouched. -/
def deleteUserData (db : DB) (discordId : JStr) : (Nat × Bool) × DB :=
  let keptLinks :=
    db.history.filter (fun h => !decide (h.discord_id = discordId))
  let userExisted := db.discord_user.any (fun u => decide (u.id = discordId))
  ((db.history.length - keptLinks.length, userExisted),
    { db with
      history := keptLinks
      discord_user :=
        db.discord_user.filter (fun u => !decide (u.id = discordId)) })

/-- cleanOldTranslations: remove the cache rows created before the
cutoff whose use count is still one; the links referencing a removed row
are removed by the cascading foreign key. -/
def cleanOldTranslations (db : DB) (cutoff : Nat) : Nat × DB :=
  let kept :=
    db.translation_history.filter
      (fun r => !(decide (r.created_at < cutoff) && decide (r.use_count = 1)))
  (db.translation_history.length - kept.length,
    { db with
      translation_history := kept
      history :=
        db.history.filter
          (fun h => kept.any (fun r => decide (r.id = h.message_id))) })

/-! ## The orchestrator translate of the gemini module -/

/-- The falsy-or of the hit path: the detected language of the cached
row, or the unknown sentinel when it is null or empty. -/
def jsOrElse (v : Option JStr) (dflt : JStr) : JStr :=
  match v with
  | some s => if s.isEmpty then dflt else s
  | none => dflt

/-- translate: query the store first and return the cached record tagged
as from the cache on a hit; otherwise run the model client on the reply
and, on success, write the result to the store before returning it
tagged as fresh.  The saveThrows oracle is the possibility of the store
write rejecting; the source does not catch that rejection, so it
propagates to the caller. -/
def translate (digest : JStr → JStr) (saveThrows : Bool) (db : DB)
    (now : Nat) (modelReply : Option JStr) (message language : JStr)
    (discordId username : Option JStr) :
    Except TransError TranslationResult × DB :=
  match getTranslationFromHistory digest db now message language with
  | (some cached, db1) =>
    (Except.ok
      { original_message := cached.original_message
        translated_message := cached.translated_message
        detected_language := jsOrElse cached.detected_language
          ("unknown".toList)
        from_cache := true }, db1)
  | (none, db1) =>
    match modelClient modelReply message with
    | Except.error e => (Except.error e, db1)
    | Except.ok result =>
      if saveThrows then (Except.error TransError.storeFailure, db1)
      else
        (Except.ok result,
          (saveTranslationToHistory digest db1 now
            result.original_message language result.detected_language
            result.translated_message discordId username).2)

/-! ## The declared schema of the translation_history table -/

/-- An index declaration of a create-table statement. -/
structure IndexDef where
  name : String
  columns : List String
  unique : Bool
deriving DecidableEq, Repr

/-- The index declarations of the translation_history table in
initDatabase: the auto-increment primary key, and two plain (non-unique)
secondary indexes, one on the hash and language pair, one on the
creation instant. -/
def translationHistoryIndexes : List IndexDef :=
  [{ name := "PRIMARY", columns := ["id"], unique := true },
   { name := "idx_hash_lang",
     columns := ["original_message_hash", "target_language"],
     unique := false },
   { name := "idx_created_at", columns := ["created_at"], unique := false }]

/-! ## Sequences of store operations -/

/-- One store-touching request, for stating invariants over every
reachable state. -/
inductive StoreOp where
  | lookup (now : Nat) (message targetLanguage : JStr) : StoreOp
  | save (now : Nat)
      (originalMessage targetLanguage detectedLanguage translatedMessage :
        JStr)
      (discordId username : Option JStr) : StoreOp
  | saveUser (now : Nat) (discordId username : JStr) : StoreOp
  | translateReq (saveThrows : Bool) (now : Nat) (modelReply : Option JStr)
      (message language : JStr) (discordId username : Option JStr) :
      StoreOp
  | deleteUser (discordId : JStr) : StoreOp
  | cleanOld (cutoff : Nat) : StoreOp

/-- The state reached by one operation. -/
def applyOp (digest : JStr → JStr) (db : DB) : StoreOp → DB
  | StoreOp.lookup now m l => (getTranslationFromHistory digest db now m l).2
  | StoreOp.save now o l d t u1 u2 =>
    (saveTranslationToHistory digest db now o l d t u1 u2).2
  | StoreOp.saveUser now u n => saveDiscordUser db now u n
  | StoreOp.translateReq st now r m l u1 u2 =>
    (translate digest st db now r m l u1 u2).2
  | StoreOp.deleteUser u => (deleteUserData db u).2
  | StoreOp.cleanOld c => (cleanOldTranslations db c).2

/-- Run a sequence of operations from the empty store. -/
def runOps (digest : JStr → JStr) (ops : List StoreOp) : DB :=
  ops.foldl (applyOp digest) emptyDB

/-- The cache key of a row: its hash and target language pair. -/
def rowKey (r : CacheRow) : JStr × JStr :=
  (r.original_message_hash, r.target_language)

/-- At most one cache row per key. -/
def KeyUnique (db : DB) : Prop :=
  db.translation_history.Pairwise (fun a b => rowKey a ≠ rowKey b)

/-- The order the lookup sorts by: use count, then update instant. -/
def keyLE (x y : CacheRow) : Prop :=
  x.use_count < y.use_count ∨
    (x.use_count = y.use_count ∧ x.updated_at ≤ y.updated_at)

/-! ## Helper lemmas -/

/-- The order of the lookup is reflexive. -/
theorem keyLE_refl (x : CacheRow) : keyLE x x := Or.inr ⟨rfl, le_refl _⟩

/-- The order of the lookup is transitive. -/
theorem keyLE_trans {x y z : CacheRow} (h1 : keyLE x y) (h2 : keyLE y z) :
    keyLE x z := by
  unfold keyLE at *
  omega

/-- The accumulator is below the better row. -/
theorem keyLE_betterRow_left (r x : CacheRow) : keyLE r (betterRow r x) := by
  unfold betterRow
  split
  · next h => unfold keyLE; omega
  · exact keyLE_refl r

/-- The candidate is below the better row. -/
theorem keyLE_betterRow_right (r x : CacheRow) : keyLE x (betterRow r x) := by
  unfold betterRow
  split
  · exact keyLE_refl x
  · next h => unfold keyLE at *; omega

/-- The fold of betterRow dominates its accumulator and every element. -/
theorem foldl_betterRow_ge (rs : List CacheRow) :
    ∀ r : CacheRow, keyLE r (rs.foldl betterRow r) ∧
      ∀ x ∈ rs, keyLE x (rs.foldl betterRow r) := by
  induction rs with
  | nil => intro r; exact ⟨keyLE_refl r, by simp⟩
  | cons y ys ih =>
    intro r
    have hy := ih (betterRow r y)
    refine ⟨keyLE_trans (keyLE_betterRow_left r y) hy.1, ?_⟩
    intro x hx
    rcases List.mem_cons.mp hx with rfl | hx2
    · exact keyLE_trans (keyLE_betterRow_right r x) hy.1
    · exact hy.2 x hx2

/-- The fold of betterRow stays among the accumulator and the
elements. -/
theorem foldl_betterRow_mem (rs : List CacheRow) :
    ∀ r : CacheRow, rs.foldl betterRow r = r ∨ rs.foldl betterRow r ∈ rs := by
  induction rs with
  | nil => intro r; exact Or.inl rfl
  | cons y ys ih =>
    intro r
    simp only [List.foldl_cons]
    have step : betterRow r y = r ∨ betterRow r y = y := by
      unfold betterRow
      split
      · exact Or.inr rfl
      · exact Or.inl rfl
    rcases ih (betterRow r y) with h | h
    · rcases step with h2 | h2
      · exact Or.inl (h.trans h2)
      · exact Or.inr (by rw [h, h2]; exact List.mem_cons_self y ys)
    · exact Or.inr (List.mem_cons_of_mem y h)

/-- The selected top row is one of the rows. -/
theorem selectTopRow_mem {rs : List CacheRow} {row : CacheRow}
    (h : selectTopRow rs = some row) : row ∈ rs := by
  cases rs with
  | nil => simp [selectTopRow] at h
  | cons r rest =>
    simp only [selectTopRow, Option.some_inj] at h
    rcases foldl_betterRow_mem rest r with h2 | h2
    · rw [← h]; rw [h2]; exact List.mem_cons_self r rest
    · rw [← h]; exact List.mem_cons_of_mem r h2

/-- The selected top row dominates every row in the order of the
lookup. -/
theorem selectTopRow_max {rs : List CacheRow} {row : CacheRow}
    (h : selectTopRow rs = some row) : ∀ x ∈ rs, keyLE x row := by
  cases rs with
  | nil => simp [selectTopRow] at h
  | cons r rest =>
    simp only [selectTopRow, Option.some_inj] at h
    intro x hx
    rcases List.mem_cons.mp hx with rfl | hx2
    · rw [← h]; exact (foldl_betterRow_ge rest x).1
    · rw [← h]; exact (foldl_betterRow_ge rest r).2 x hx2

/-- Selecting from no rows yields nothing and vice versa. -/
theorem selectTopRow_eq_none {rs : List CacheRow} :
    selectTopRow rs = none ↔ rs = [] := by
  cases rs <;> simp [selectTopRow]

/-- A filter commutes with a map that does not change the predicate. -/
theorem filter_map_of_pred {α : Type} (p : α → Bool) (f : α → α)
    (h : ∀ a, p (f a) = p a) (l : List α) :
    (l.map f).filter p = (l.filter p).map f := by
  induction l with
  | nil => rfl
  | cons a l ih =>
    by_cases hp : p a = true
    · simp [List.filter_cons, hp, h, ih]
    · simp only [Bool.not_eq_true] at hp
      simp [List.filter_cons, hp, h, ih]

/-- Updating the row of a given identifier in a table with distinct
identifiers touches that row alone. -/
theorem map_ite_id_split {l : List CacheRow} {row : CacheRow}
    (upd : CacheRow → CacheRow) (hnd : (l.map CacheRow.id).Nodup)
    (hmem : row ∈ l) :
    ∃ l1 l2, l = l1 ++ row :: l2 ∧
      (l.map fun r => if r.id = row.id then upd r else r) =
        l1 ++ upd row :: l2 := by
  obtain ⟨l1, l2, rfl⟩ := List.append_of_mem hmem
  refine ⟨l1, l2, rfl, ?_⟩
  rw [List.map_append, List.map_cons]
  have hnotin : row.id ∉ (l1 ++ l2).map CacheRow.id := by
    rw [List.map_append, List.map_cons] at hnd
    have := (List.nodup_cons.mp (List.nodup_middle.mp hnd)).1
    rwa [List.map_append]
  rw [List.map_append] at hnotin
  have h1 : ∀ x ∈ l1, (if x.id = row.id then upd x else x) = x := by
    intro x hx
    have : x.id ≠ row.id := by
      intro he
      exact hnotin (List.mem_append_left _ (he ▸ List.mem_map_of_mem CacheRow.id hx))
    exact if_neg this
  have h2 : ∀ x ∈ l2, (if x.id = row.id then upd x else x) = x := by
    intro x hx
    have : x.id ≠ row.id := by
      intro he
      exact hnotin (List.mem_append_right _ (he ▸ List.mem_map_of_mem CacheRow.id hx))
    exact if_neg this
  rw [List.map_congr_left h1, if_pos rfl, List.map_congr_left h2,
    List.map_id', List.map_id']

/-! ## C7: fingerprint normalization -/

/-- C7: two strings with the same lower-cased trimmed form have the same
fingerprint, for every digest function, and the fingerprint is the
digest of the lower-cased trimmed input; the function is total on
strings, the empty string included. -/
theorem C7_fingerprint_normalization (digest : JStr → JStr) (a b : JStr)
    (h : jsToLower (jsTrim a) = jsToLower (jsTrim b)) :
    hashMessage digest a = hashMessage digest b ∧
    hashMessage digest a = digest (jsToLower (jsTrim a)) := by
  constructor
  · unfold hashMessage
    rw [jsTrim_jsToLower, jsTrim_jsToLower, h]
  · unfold hashMessage
    rw [jsTrim_jsToLower]

/-- Witness for C7 at a pair differing in case and edge whitespace. -/
theorem C7_fingerprint_normalization_witness :
    jsToLower (jsTrim (" Hello ".toList)) =
      jsToLower (jsTrim ("HELLO".toList)) ∧
    (hashMessage (fun s => s) (" Hello ".toList) =
        hashMessage (fun s => s) ("HELLO".toList) ∧
      hashMessage (fun s => s) (" Hello ".toList) =
        (fun s : JStr => s) (jsToLower (jsTrim (" Hello ".toList)))) :=
  ⟨by decide,
    C7_fingerprint_normalization (fun s => s) (" Hello ".toList)
      ("HELLO".toList) (by decide)⟩

/-! ## C8: the repair pass on a fenced reply with unquoted keys -/

/-- The reply of the claim: the expected object wrapped in fences, with
unquoted keys. -/
def fencedUnquotedReply : JStr :=
  ("```json\n\x7boriginal_message: \"hi\", translated_message: \"hola\", detected_language: \"english\"\x7d\n```").toList

/-- C8: on the fenced reply with unquoted keys the strict parse of the
cleaned text fails, and the client pipeline nevertheless succeeds
through the repair pass, yielding the three field values. -/
theorem C8_fenced_unquoted_reply_parses (msg : JStr) :
    (jsonParse (cleanedTextOf fencedUnquotedReply)).isNone = true ∧
    modelClient (some fencedUnquotedReply) msg =
      Except.ok
        { original_message := "hi".toList
          translated_message := "hola".toList
          detected_language := "english".toList
          from_cache := false } :=
  ⟨rfl, rfl⟩

/-- Witness for C8 at a concrete message. -/
theorem C8_fenced_unquoted_reply_parses_witness :
    (jsonParse (cleanedTextOf fencedUnquotedReply)).isNone = true ∧
    modelClient (some fencedUnquotedReply) ("x".toList) =
      Except.ok
        { original_message := "hi".toList
          translated_message := "hola".toList
          detected_language := "english".toList
          from_cache := false } :=
  C8_fenced_unquoted_reply_parses ("x".toList)

/-! ## C9: parse failure raises and writes nothing -/

/-- C9: when the call misses the cache and both the strict parse and the
repaired parse of the reply fail, translate raises the parse failure
carrying the raw reply text and the store state is unchanged. -/
theorem C9_parse_failure_no_write (digest : JStr → JStr) (db : DB)
    (now : Nat) (r msg lang : JStr) (uid uname : Option JStr)
    (saveThrows : Bool)
    (hmiss : selectByHashLang digest db msg lang = [])
    (h1 : jsonParse (cleanedTextOf r) = none)
    (h2 : jsonParse (repairKeys (cleanedTextOf r)) = none) :
    translate digest saveThrows db now (some r) msg lang uid uname =
      (Except.error (TransError.parseFailure r), db) := by
  unfold translate getTranslationFromHistory
  rw [hmiss]
  unfold modelClient
  simp only [Option.getD_some, selectTopRow]
  rw [h1, h2]

/-- Witness for C9 on a garbage reply against the empty store. -/
theorem C9_parse_failure_no_write_witness :
    selectByHashLang (fun s => s) emptyDB ("m".toList) ("l".toList) = [] ∧
    jsonParse (cleanedTextOf ("garbage".toList)) = none ∧
    jsonParse (repairKeys (cleanedTextOf ("garbage".toList))) = none ∧
    translate (fun s => s) false emptyDB 7 (some ("garbage".toList))
        ("m".toList) ("l".toList) none none =
      (Except.error (TransError.parseFailure ("garbage".toList)), emptyDB) :=
  ⟨rfl, rfl, rfl,
    C9_parse_failure_no_write (fun s => s) emptyDB 7 ("garbage".toList)
      ("m".toList) ("l".toList) none none false rfl rfl rfl⟩

/-! ## The lookup characterization -/

/-- Characterization of a lookup hit on a table with distinct
identifiers: the returned row is a matching stored row read before the
update, it dominates every matching row in the order of the lookup, and
the new state differs from the old only in that row, whose use count
grew by one and whose update instant became the current one. -/
theorem lookup_hit_char {digest : JStr → JStr} {db : DB} {now : Nat}
    {msg lang : JStr} {row : CacheRow}
    (hnd : (db.translation_history.map CacheRow.id).Nodup)
    (h : (getTranslationFromHistory digest db now msg lang).1 = some row) :
    row ∈ db.translation_history ∧
    rowMatches (hashMessage digest msg) (jsToLower lang) row = true ∧
    (∀ x ∈ selectByHashLang digest db msg lang, keyLE x row) ∧
    ∃ l1 l2, db.translation_history = l1 ++ row :: l2 ∧
      (getTranslationFromHistory digest db now msg lang).2 =
        { db with
          translation_history :=
            l1 ++
              { row with
                  use_count := row.use_count + 1
                  updated_at := now } :: l2 } := by
  unfold getTranslationFromHistory at h ⊢
  cases hsel : selectTopRow (selectByHashLang digest db msg lang) with
  | none => rw [hsel] at h; simp at h
  | some row2 =>
    rw [hsel] at h
    simp only [Option.some_inj] at h
    subst h
    have hmemsel := selectTopRow_mem hsel
    have hmem := List.mem_of_mem_filter hmemsel
    have hmatch := List.of_mem_filter hmemsel
    refine ⟨hmem, hmatch, selectTopRow_max hsel, ?_⟩
    obtain ⟨l1, l2, hsplit, hmap⟩ :=
      map_ite_id_split
        (fun r => { r with use_count := r.use_count + 1, updated_at := now })
        hnd hmem
    refine ⟨l1, l2, hsplit, ?_⟩
    simp only [hmap]

/-- Characterization of a lookup miss: nothing matched and the state is
untouched. -/
theorem lookup_miss_char {digest : JStr → JStr} {db : DB} {now : Nat}
    {msg lang : JStr}
    (h : (getTranslationFromHistory digest db now msg lang).1 = none) :
    selectByHashLang digest db msg lang = [] ∧
    (getTranslationFromHistory digest db now msg lang).2 = db := by
  unfold getTranslationFromHistory at h ⊢
  cases hsel : selectTopRow (selectByHashLang digest db msg lang) with
  | none => exact ⟨selectTopRow_eq_none.mp hsel, rfl⟩
  | some row2 => rw [hsel] at h; simp at h

/-! ## C6: the lookup is a read with one bounded side effect -/

/-- C6: on a table with distinct row identifiers, a lookup miss leaves
the store entirely unchanged; a lookup hit increments the use count of
the matched row by exactly one and refreshes its update instant, changes
no other field of that row and no other row, leaves the other tables and
the counters unchanged, and the matched row dominates every matching row
by use count and then update instant. -/
theorem C6_lookup_side_effect (digest : JStr → JStr) (db : DB) (now : Nat)
    (msg lang : JStr)
    (hnd : (db.translation_history.map CacheRow.id).Nodup) :
    ((getTranslationFromHistory digest db now msg lang).1 = none →
      (getTranslationFromHistory digest db now msg lang).2 = db) ∧
    (∀ row, (getTranslationFromHistory digest db now msg lang).1 = some row →
      (∀ x ∈ selectByHashLang digest db msg lang, keyLE x row) ∧
      ∃ l1 l2, db.translation_history = l1 ++ row :: l2 ∧
        (getTranslationFromHistory digest db now msg lang).2 =
          { db with
            translation_history :=
              l1 ++
                { row with
                    use_count := row.use_count + 1
                    updated_at := now } :: l2 }) := by
  constructor
  · intro h
    exact (lookup_miss_char h).2
  · intro row h
    obtain ⟨_, _, hmax, hsplit⟩ := lookup_hit_char hnd h
    exact ⟨hmax, hsplit⟩

/-- Witness for C6 on a concrete store holding two rows of the looked-up
key, where the lookup picks the row with the higher use count. -/
theorem C6_lookup_side_effect_witness :
    (let db : DB :=
      { translation_history :=
          [{ id := 1, original_message := "a".toList,
             original_message_hash := "a".toList,
             target_language := "l".toList,
             detected_language := some ("d".toList),
             translated_message := "t".toList,
             created_at := 0, updated_at := 3, use_count := 2 },
           { id := 2, original_message := "a".toList,
             original_message_hash := "a".toList,
             target_language := "l".toList,
             detected_language := some ("d".toList),
             translated_message := "u".toList,
             created_at := 0, updated_at := 1, use_count := 5 }]
        discord_user := []
        history := []
        nextTransId := 3
        nextHistId := 1 }
    (db.translation_history.map CacheRow.id).Nodup ∧
    (((getTranslationFromHistory (fun s => s) db 9 ("a".toList)
        ("l".toList)).1 = none →
      (getTranslationFromHistory (fun s => s) db 9 ("a".toList)
        ("l".toList)).2 = db) ∧
    (∀ row,
      (getTranslationFromHistory (fun s => s) db 9 ("a".toList)
        ("l".toList)).1 = some row →
      (∀ x ∈ selectByHashLang (fun s => s) db ("a".toList) ("l".toList),
        keyLE x row) ∧
      ∃ l1 l2, db.translation_history = l1 ++ row :: l2 ∧
        (getTranslationFromHistory (fun s => s) db 9 ("a".toList)
          ("l".toList)).2 =
          { db with
            translation_history :=
              l1 ++
                { row with
                    use_count := row.use_count + 1
                    updated_at := 9 } :: l2 }))) :=
  ⟨by decide,
    C6_lookup_side_effect (fun s => s) _ 9 ("a".toList) ("l".toList)
      (by decide)⟩

/-! ## C10: the hit returns the pre-increment row -/

/-- C10: on a table with distinct row identifiers, the entry a lookup
hit returns is the stored row as read before the increment: it belongs
to the pre-state, and the post-state stores it with a use count exactly
one greater than the returned one, so the returned use count is one less
than the stored one; the translate result of the hit is built from the
returned pre-increment row and is tagged as from the cache. -/
theorem C10_hit_returns_preincrement (digest : JStr → JStr) (db : DB)
    (now : Nat) (msg lang : JStr) (row : CacheRow)
    (hnd : (db.translation_history.map CacheRow.id).Nodup)
    (h : (getTranslationFromHistory digest db now msg lang).1 = some row) :
    row ∈ db.translation_history ∧
    (∃ l1 l2, db.translation_history = l1 ++ row :: l2 ∧
      ((getTranslationFromHistory digest db now msg lang).2).translation_history =
        l1 ++
          { row with
              use_count := row.use_count + 1
              updated_at := now } :: l2) ∧
    (∀ saveThrows reply uid uname,
      (translate digest saveThrows db now reply msg lang uid uname).1 =
        Except.ok
          { original_message := row.original_message
            translated_message := row.translated_message
            detected_language :=
              jsOrElse row.detected_language ("unknown".toList)
            from_cache := true }) := by
  obtain ⟨hmem, _, _, l1, l2, hsplit, hpost⟩ := lookup_hit_char hnd h
  refine ⟨hmem, ⟨l1, l2, hsplit, by rw [hpost]⟩, ?_⟩
  intro saveThrows reply uid uname
  unfold translate
  have hpair : getTranslationFromHistory digest db now msg lang =
      (some row, (getTranslationFromHistory digest db now msg lang).2) := by
    rw [← h]
  rw [hpair]

/-- Witness for C10 on a one-row store. -/
theorem C10_hit_returns_preincrement_witness :
    (let db : DB :=
      { translation_history :=
          [{ id := 1, original_message := "A".toList,
             original_message_hash := "a".toList,
             target_language := "l".toList,
             detected_language := some ("d".toList),
             translated_message := "t".toList,
             created_at := 0, updated_at := 3, use_count := 4 }]
        discord_user := []
        history := []
        nextTransId := 2
        nextHistId := 1 }
    let row : CacheRow :=
      { id := 1, original_message := "A".toList,
        original_message_hash := "a".toList,
        target_language := "l".toList,
        detected_language := some ("d".toList),
        translated_message := "t".toList,
        created_at := 0, updated_at := 3, use_count := 4 }
    (db.translation_history.map CacheRow.id).Nodup ∧
    (getTranslationFromHistory (fun s => s) db 9 ("a".toList)
        ("l".toList)).1 = some row ∧
    (row ∈ db.translation_history ∧
      (∃ l1 l2, db.translation_history = l1 ++ row :: l2 ∧
        (getTranslationFromHistory (fun s => s) db 9 ("a".toList)
            ("l".toList)).2.translation_history =
          l1 ++
            { row with
                use_count := row.use_count + 1
                updated_at := 9 } :: l2) ∧
      (∀ saveThrows reply uid uname,
        (translate (fun s => s) saveThrows db 9 reply ("a".toList)
            ("l".toList) uid uname).1 =
          Except.ok
            { original_message := row.original_message
              translated_message := row.translated_message
              detected_language :=
                jsOrElse row.detected_language ("unknown".toList)
              from_cache := true }))) :=
  ⟨by decide, by decide,
    C10_hit_returns_preincrement (fun s => s) _ 9 ("a".toList)
      ("l".toList) _ (by decide) (by decide)⟩

/-! ## Frame facts about the lookup -/

/-- The lookup never touches the user table, the link table, the
counters, nor, rowwise, the message text, the key fields or the
identifiers of the cache table. -/
theorem lookup_frame (digest : JStr → JStr) (db : DB) (now : Nat)
    (msg lang : JStr) :
    DB.history ((getTranslationFromHistory digest db now msg lang).2) =
      db.history ∧
    DB.discord_user ((getTranslationFromHistory digest db now msg lang).2) =
      db.discord_user ∧
    DB.nextTransId ((getTranslationFromHistory digest db now msg lang).2) =
      db.nextTransId ∧
    DB.nextHistId ((getTranslationFromHistory digest db now msg lang).2) =
      db.nextHistId ∧
    List.map CacheRow.original_message
        (DB.translation_history
          ((getTranslationFromHistory digest db now msg lang).2)) =
      List.map CacheRow.original_message db.translation_history ∧
    List.map rowKey
        (DB.translation_history
          ((getTranslationFromHistory digest db now msg lang).2)) =
      List.map rowKey db.translation_history ∧
    List.map CacheRow.id
        (DB.translation_history
          ((getTranslationFromHistory digest db now msg lang).2)) =
      List.map CacheRow.id db.translation_history := by
  unfold getTranslationFromHistory
  cases hsel : selectTopRow (selectByHashLang digest db msg lang) with
  | none => exact ⟨rfl, rfl, rfl, rfl, rfl, rfl, rfl⟩
  | some row =>
    refine ⟨rfl, rfl, rfl, rfl, ?_, ?_, ?_⟩ <;>
      · rw [List.map_map]
        refine List.map_congr_left ?_
        intro r _
        by_cases hid : r.id = row.id <;> simp [hid, rowKey]

/-! ## C2: the second call is a hit but creates no usage link -/

/-- The reply used by the concrete two-call scenarios: the expected
object for the message Hello. -/
def helloReply : JStr :=
  ("\x7b\"original_message\": \"Hello\", \"translated_message\": \"Hola\", \"detected_language\": \"english\"\x7d").toList

/-- Counterexample to C2 as stated: translating Hello to spanish with no
user and then HELLO with trailing blanks to Spanish with a user makes
the second call a cache hit and leaves the stored original message
untouched, but the link table stays empty: no usage link at all is
created, not exactly one, because the hit path of translate returns
before any attribution code runs. -/
theorem C2_counterexample :
    (let p1 := translate (fun s => s) false emptyDB 1 (some helloReply)
      ("Hello".toList) ("spanish".toList) none none
    let p2 := translate (fun s => s) false p1.2 2 none
      ("HELLO  ".toList) ("Spanish".toList) (some ("42".toList))
      (some ("alice".toList))
    (∃ r2, p2.1 = Except.ok r2 ∧ r2.from_cache = true) ∧
    p2.2.history.length = 0 ∧
    ¬ p2.2.history.length = 1 ∧
    p2.2.translation_history.map CacheRow.original_message =
      [("Hello".toList)]) :=
  ⟨⟨_, rfl, rfl⟩, rfl, by decide, rfl⟩

/-- C2 amended: a cache hit returns the cached record built from the
stored row, tagged as from the cache, and performs no attribution at
all: the link table and the user table are unchanged whatever user the
caller supplies, and every stored original message is left as stored. -/
theorem C2_cache_hit_no_attribution (digest : JStr → JStr) (db : DB)
    (now : Nat) (reply : Option JStr) (msg lang : JStr)
    (uid uname : Option JStr) (saveThrows : Bool) (row : CacheRow)
    (hhit : (getTranslationFromHistory digest db now msg lang).1 =
      some row) :
    (translate digest saveThrows db now reply msg lang uid uname).1 =
      Except.ok
        { original_message := row.original_message
          translated_message := row.translated_message
          detected_language :=
            jsOrElse row.detected_language ("unknown".toList)
          from_cache := true } ∧
    DB.history
        ((translate digest saveThrows db now reply msg lang uid uname).2) =
      db.history ∧
    DB.discord_user
        ((translate digest saveThrows db now reply msg lang uid uname).2) =
      db.discord_user ∧
    List.map CacheRow.original_message
        (DB.translation_history
          ((translate digest saveThrows db now reply msg lang uid
            uname).2)) =
      List.map CacheRow.original_message db.translation_history := by
  have hpair : getTranslationFromHistory digest db now msg lang =
      (some row, (getTranslationFromHistory digest db now msg lang).2) := by
    rw [← hhit]
  have hframe := lookup_frame digest db now msg lang
  unfold translate
  rw [hpair]
  exact ⟨rfl, hframe.1, hframe.2.1, hframe.2.2.2.2.1⟩

/-- Witness for the amended C2 on a one-row store holding the Hello
translation. -/
theorem C2_cache_hit_no_attribution_witness :
    (let db : DB :=
      { translation_history :=
          [{ id := 1, original_message := "Hello".toList,
             original_message_hash := "hello".toList,
             target_language := "spanish".toList,
             detected_language := some ("english".toList),
             translated_message := "Hola".toList,
             created_at := 1, updated_at := 1, use_count := 1 }]
        discord_user := []
        history := []
        nextTransId := 2
        nextHistId := 1 }
    let row : CacheRow :=
      { id := 1, original_message := "Hello".toList,
        original_message_hash := "hello".toList,
        target_language := "spanish".toList,
        detected_language := some ("english".toList),
        translated_message := "Hola".toList,
        created_at := 1, updated_at := 1, use_count := 1 }
    (getTranslationFromHistory (fun s => s) db 2 ("HELLO  ".toList)
        ("Spanish".toList)).1 = some row ∧
    ((translate (fun s => s) false db 2 none ("HELLO  ".toList)
          ("Spanish".toList) (some ("42".toList))
          (some ("alice".toList))).1 =
        Except.ok
          { original_message := row.original_message
            translated_message := row.translated_message
            detected_language :=
              jsOrElse row.detected_language ("unknown".toList)
            from_cache := true } ∧
      DB.history
          ((translate (fun s => s) false db 2 none ("HELLO  ".toList)
            ("Spanish".toList) (some ("42".toList))
            (some ("alice".toList))).2) = db.history ∧
      DB.discord_user
          ((translate (fun s => s) false db 2 none ("HELLO  ".toList)
            ("Spanish".toList) (some ("42".toList))
            (some ("alice".toList))).2) = db.discord_user ∧
      List.map CacheRow.original_message
          (DB.translation_history
            ((translate (fun s => s) false db 2 none ("HELLO  ".toList)
              ("Spanish".toList) (some ("42".toList))
              (some ("alice".toList))).2)) =
        List.map CacheRow.original_message db.translation_history)) :=
  ⟨by decide,
    C2_cache_hit_no_attribution (fun s => s) _ 2 none ("HELLO  ".toList)
      ("Spanish".toList) (some ("42".toList)) (some ("alice".toList))
      false _ (by decide)⟩

/-! ## Characterization of the save -/

/-- The user upsert never touches the cache table, the link table or the
counters. -/
theorem saveDiscordUser_frame (db : DB) (now : Nat) (u n : JStr) :
    DB.translation_history (saveDiscordUser db now u n) =
      db.translation_history ∧
    DB.history (saveDiscordUser db now u n) = db.history ∧
    DB.nextTransId (saveDiscordUser db now u n) = db.nextTransId ∧
    DB.nextHistId (saveDiscordUser db now u n) = db.nextHistId := by
  unfold saveDiscordUser
  split <;> exact ⟨rfl, rfl, rfl, rfl⟩

/-- The insert-path attribution never touches the cache table. -/
theorem linkUserAfterInsert_th (db : DB) (now : Nat) (u n : JStr)
    (mid : Nat) :
    DB.translation_history (linkUserAfterInsert db now u n mid) =
      db.translation_history := by
  unfold linkUserAfterInsert saveDiscordUser
  split <;> rfl

/-- The update-path attribution never touches the cache table. -/
theorem linkUserAfterUpdate_th (db : DB) (now : Nat) (u n : JStr)
    (mid : Nat) :
    DB.translation_history (linkUserAfterUpdate db now u n mid) =
      db.translation_history := by
  unfold linkUserAfterUpdate saveDiscordUser
  split <;> (dsimp only; split <;> rfl)

/-- When the existence check is empty, the save appends exactly one
fresh row, with use count one, both instants current, the hash of the
message, the lower-cased language and the given texts, keyed by the next
identifier. -/
theorem save_insert_th (digest : JStr → JStr) (db : DB) (now : Nat)
    (orig lang det trans : JStr) (uid uname : Option JStr)
    (hchk : saveExistingCheck digest db orig lang = []) :
    DB.translation_history
        ((saveTranslationToHistory digest db now orig lang det trans uid
          uname).2) =
      db.translation_history ++
        [{ id := db.nextTransId, original_message := orig,
           original_message_hash := hashMessage digest orig,
           target_language := jsToLower lang,
           detected_language := some det, translated_message := trans,
           created_at := now, updated_at := now, use_count := 1 }] := by
  unfold saveTranslationToHistory saveGivenCheck
  rw [hchk]
  cases htp : truthyPair uid uname with
  | none => rfl
  | some p =>
    obtain ⟨u2, n2⟩ := p
    exact linkUserAfterInsert_th
      { db with
        translation_history :=
          db.translation_history ++
            [{ id := db.nextTransId, original_message := orig,
               original_message_hash := hashMessage digest orig,
               target_language := jsToLower lang,
               detected_language := some det,
               translated_message := trans, created_at := now,
               updated_at := now, use_count := 1 }]
        nextTransId := db.nextTransId + 1 }
      now u2 n2 db.nextTransId

/-- When the existence check found a first row, the save maps the cache
table through the in-place update of that row: new translated text and
detected language, use count one higher, update instant refreshed. -/
theorem save_update_th (digest : JStr → JStr) (db : DB) (now : Nat)
    (orig lang det trans : JStr) (uid uname : Option JStr)
    (e0 : CacheRow) (es : List CacheRow)
    (hchk : saveExistingCheck digest db orig lang = e0 :: es) :
    DB.translation_history
        ((saveTranslationToHistory digest db now orig lang det trans uid
          uname).2) =
      db.translation_history.map fun r =>
        if r.id = e0.id then
          { r with
            translated_message := trans
            detected_language := some det
            use_count := r.use_count + 1
            updated_at := now }
        else r := by
  unfold saveTranslationToHistory saveGivenCheck
  rw [hchk]
  cases htp : truthyPair uid uname with
  | none => rfl
  | some p =>
    obtain ⟨u2, n2⟩ := p
    exact linkUserAfterUpdate_th
      { db with
        translation_history :=
          db.translation_history.map fun r =>
            if r.id = e0.id then
              { r with
                translated_message := trans
                detected_language := some det
                use_count := r.use_count + 1
                updated_at := now }
            else r }
      now u2 n2 e0.id

/-! ## C4: the behavior and the return of the save -/

/-- Counterexample to the return clause of C4: a first save against the
empty store creates a row and a second save of the same message and
language updates it in place, yet the two calls return the same unit
value, so the returned value carries neither the resulting cache row
nor whether it was newly created; the source function returns a promise
of void. -/
theorem C4_counterexample :
    (let r1 := saveTranslationToHistory (fun s => s) emptyDB 1
      ("a".toList) ("l".toList) ("d".toList) ("t".toList) none none
    let r2 := saveTranslationToHistory (fun s => s) r1.2 2 ("a".toList)
      ("l".toList) ("e".toList) ("u".toList) none none
    r1.2.translation_history.length = 1 ∧
    r2.2.translation_history.map CacheRow.use_count = [2] ∧
    r2.2.translation_history.map CacheRow.translated_message =
      [("u".toList)] ∧
    r1.1 = r2.1) :=
  ⟨rfl, rfl, rfl, rfl⟩

/-- C4 amended: given the message, language, detected language and
translated text, the save overwrites the translated text and detected
language of the existing row for the pair, increments its use count and
refreshes its update instant, touching no other row; otherwise it
inserts a new row with use count one; in both cases it returns nothing
(void), so in particular not the resulting row nor a created flag. -/
theorem C4_upsert_behavior (digest : JStr → JStr) (db : DB) (now : Nat)
    (orig lang det trans : JStr) (uid uname : Option JStr)
    (hnd : (db.translation_history.map CacheRow.id).Nodup) :
    (saveTranslationToHistory digest db now orig lang det trans uid
        uname).1 = () ∧
    (saveExistingCheck digest db orig lang = [] →
      DB.translation_history
          ((saveTranslationToHistory digest db now orig lang det trans
            uid uname).2) =
        db.translation_history ++
          [{ id := db.nextTransId, original_message := orig,
             original_message_hash := hashMessage digest orig,
             target_language := jsToLower lang,
             detected_language := some det, translated_message := trans,
             created_at := now, updated_at := now, use_count := 1 }]) ∧
    (∀ e0 es, saveExistingCheck digest db orig lang = e0 :: es →
      ∃ l1 l2, db.translation_history = l1 ++ e0 :: l2 ∧
        DB.translation_history
            ((saveTranslationToHistory digest db now orig lang det trans
              uid uname).2) =
          l1 ++
            { e0 with
              translated_message := trans
              detected_language := some det
              use_count := e0.use_count + 1
              updated_at := now } :: l2) := by
  refine ⟨rfl, ?_, ?_⟩
  · intro hchk
    exact save_insert_th digest db now orig lang det trans uid uname hchk
  · intro e0 es hchk
    have hmem : e0 ∈ db.translation_history := by
      have : e0 ∈ saveExistingCheck digest db orig lang := by
        rw [hchk]; exact List.mem_cons_self e0 es
      exact List.mem_of_mem_filter this
    obtain ⟨l1, l2, hsplit, hmap⟩ :=
      map_ite_id_split
        (fun r =>
          { r with
            translated_message := trans
            detected_language := some det
            use_count := r.use_count + 1
            updated_at := now })
        hnd hmem
    refine ⟨l1, l2, hsplit, ?_⟩
    rw [save_update_th digest db now orig lang det trans uid uname e0 es
      hchk]
    exact hmap

/-- Witness for the amended C4 on a one-row store, exercising the update
branch. -/
theorem C4_upsert_behavior_witness :
    (let db : DB :=
      { translation_history :=
          [{ id := 1, original_message := "a".toList,
             original_message_hash := "a".toList,
             target_language := "l".toList,
             detected_language := some ("d".toList),
             translated_message := "t".toList,
             created_at := 1, updated_at := 1, use_count := 3 }]
        discord_user := []
        history := []
        nextTransId := 2
        nextHistId := 1 }
    (db.translation_history.map CacheRow.id).Nodup ∧
    ((saveTranslationToHistory (fun s => s) db 5 ("a".toList)
          ("l".toList) ("e".toList) ("u".toList) none none).1 = () ∧
      (saveExistingCheck (fun s => s) db ("a".toList) ("l".toList) = [] →
        DB.translation_history
            ((saveTranslationToHistory (fun s => s) db 5 ("a".toList)
              ("l".toList) ("e".toList) ("u".toList) none none).2) =
          db.translation_history ++
            [{ id := db.nextTransId, original_message := "a".toList,
               original_message_hash :=
                 hashMessage (fun s => s) ("a".toList),
               target_language := jsToLower ("l".toList),
               detected_language := some ("e".toList),
               translated_message := "u".toList,
               created_at := 5, updated_at := 5, use_count := 1 }]) ∧
      (∀ e0 es,
        saveExistingCheck (fun s => s) db ("a".toList) ("l".toList) =
          e0 :: es →
        ∃ l1 l2, db.translation_history = l1 ++ e0 :: l2 ∧
          DB.translation_history
              ((saveTranslationToHistory (fun s => s) db 5 ("a".toList)
                ("l".toList) ("e".toList) ("u".toList) none none).2) =
            l1 ++
              { e0 with
                translated_message := "u".toList
                detected_language := some ("e".toList)
                use_count := e0.use_count + 1
                updated_at := 5 } :: l2))) :=
  ⟨by decide,
    C4_upsert_behavior (fun s => s) _ 5 ("a".toList) ("l".toList)
      ("e".toList) ("u".toList) none none (by decide)⟩

/-! ## The model client always returns fresh results -/

/-- Every record built from a parse result is tagged as not from the
cache. -/
theorem extractResult_from_cache {j : Json} {msg : JStr}
    {r : TranslationResult} (h : extractResult j msg = some r) :
    r.from_cache = false := by
  cases j with
  | null => simp [extractResult] at h
  | bool b =>
    simp only [extractResult, Option.some_inj] at h
    rw [← h]
  | num l =>
    simp only [extractResult, Option.some_inj] at h
    rw [← h]
  | str s2 =>
    simp only [extractResult, Option.some_inj] at h
    rw [← h]
  | arr es =>
    simp only [extractResult, Option.some_inj] at h
    rw [← h]
  | obj fields =>
    simp only [extractResult, Option.some_inj] at h
    rw [← h]

/-- Every successful client result is tagged as not from the cache. -/
theorem modelClient_ok_from_cache {reply : Option JStr} {msg : JStr}
    {res : TranslationResult}
    (h : modelClient reply msg = Except.ok res) : res.from_cache = false := by
  simp only [modelClient] at h
  split at h
  · split at h
    · next r2 he =>
      rw [Except.ok.injEq] at h
      exact h ▸ extractResult_from_cache he
    · exact absurd h (by simp)
  · split at h <;> exact absurd h (by simp)

/-! ## C3: a failing store write is raised to the caller -/

/-- Counterexample to C3 as stated: against the empty store, the model
call on the Hello reply succeeds and yields the translated record, yet
when the store write rejects, translate raises that rejection to the
caller instead of returning the successfully translated result; nothing
in the source catches the rejection of the save, and no logging path
exists for it. -/
theorem C3_counterexample :
    modelClient (some helloReply) ("Hello".toList) =
      Except.ok
        { original_message := "Hello".toList
          translated_message := "Hola".toList
          detected_language := "english".toList
          from_cache := false } ∧
    (translate (fun s => s) true emptyDB 1 (some helloReply)
        ("Hello".toList) ("spanish".toList) none none).1 =
      Except.error TransError.storeFailure :=
  ⟨rfl, rfl⟩

/-- C3 amended: when the call misses the cache, the model call succeeds,
and the store write rejects, translate raises the store failure to the
caller rather than returning the translated result; the webhook layer is
what catches it and reports a generic failure. -/
theorem C3_store_failure_propagates (digest : JStr → JStr) (db : DB)
    (now : Nat) (reply : Option JStr) (msg lang : JStr)
    (uid uname : Option JStr) (res : TranslationResult)
    (hmiss : (getTranslationFromHistory digest db now msg lang).1 = none)
    (hok : modelClient reply msg = Except.ok res) :
    (translate digest true db now reply msg lang uid uname).1 =
      Except.error TransError.storeFailure := by
  have hpair : getTranslationFromHistory digest db now msg lang =
      (none, (getTranslationFromHistory digest db now msg lang).2) := by
    rw [← hmiss]
  unfold translate
  rw [hpair, hok]
  rfl

/-- Witness for the amended C3 against the empty store. -/
theorem C3_store_failure_propagates_witness :
    (getTranslationFromHistory (fun s => s) emptyDB 3 ("Hello".toList)
        ("spanish".toList)).1 = none ∧
    modelClient (some helloReply) ("Hello".toList) =
      Except.ok
        { original_message := "Hello".toList
          translated_message := "Hola".toList
          detected_language := "english".toList
          from_cache := false } ∧
    (translate (fun s => s) true emptyDB 3 (some helloReply)
        ("Hello".toList) ("spanish".toList) none none).1 =
      Except.error TransError.storeFailure :=
  ⟨rfl, rfl,
    C3_store_failure_propagates (fun s => s) emptyDB 3 (some helloReply)
      ("Hello".toList) ("spanish".toList) none none
      { original_message := "Hello".toList
        translated_message := "Hola".toList
        detected_language := "english".toList
        from_cache := false } rfl rfl⟩

/-! ## C1: translate twice is a miss then a hit with one extra use -/

/-- C1: from a store with no row for the key of the message and
language, two sequential translate calls with a successful model reply
whose echoed original message fingerprints like the submitted message
give a fresh result first and a cached result second, and the stored
use count of the single row for the key after the second call is
exactly one greater than after the first call. -/
theorem C1_translate_twice (digest : JStr → JStr) (db : DB)
    (now1 now2 : Nat) (reply1 reply2 : Option JStr) (msg lang : JStr)
    (res : TranslationResult)
    (hmiss : selectByHashLang digest db msg lang = [])
    (hok : modelClient reply1 msg = Except.ok res)
    (hecho : hashMessage digest res.original_message =
      hashMessage digest msg) :
    (let p1 := translate digest false db now1 reply1 msg lang none none
    let p2 := translate digest false p1.2 now2 reply2 msg lang none none
    (∃ r1, p1.1 = Except.ok r1 ∧ r1.from_cache = false) ∧
    (∃ r2, p2.1 = Except.ok r2 ∧ r2.from_cache = true) ∧
    (∃ n,
      (selectByHashLang digest p1.2 msg lang).map CacheRow.use_count =
        [n] ∧
      (selectByHashLang digest p2.2 msg lang).map CacheRow.use_count =
        [n + 1])) := by
  have hget1 : getTranslationFromHistory digest db now1 msg lang =
      (none, db) := by
    unfold getTranslationFromHistory
    rw [hmiss]
    rfl
  have hchk : saveExistingCheck digest db res.original_message lang =
      [] := by
    unfold saveExistingCheck selectByHashLang
    unfold selectByHashLang at hmiss
    rw [hecho]
    exact hmiss
  set R : CacheRow :=
    { id := db.nextTransId, original_message := res.original_message,
      original_message_hash := hashMessage digest res.original_message,
      target_language := jsToLower lang,
      detected_language := some res.detected_language,
      translated_message := res.translated_message,
      created_at := now1, updated_at := now1, use_count := 1 } with hR
  set D1 : DB :=
    { db with
      translation_history := db.translation_history ++ [R]
      nextTransId := db.nextTransId + 1 } with hD1
  have hsave : saveTranslationToHistory digest db now1
      res.original_message lang res.detected_language
      res.translated_message none none = ((), D1) := by
    unfold saveTranslationToHistory saveGivenCheck
    rw [hchk]
    rfl
  have hp1 : translate digest false db now1 reply1 msg lang none none =
      (Except.ok res, D1) := by
    unfold translate
    rw [hget1, hok]
    show (Except.ok res,
      (saveTranslationToHistory digest db now1 res.original_message lang
        res.detected_language res.translated_message none none).2) =
      (Except.ok res, D1)
    rw [hsave]
  have hrm : rowMatches (hashMessage digest msg) (jsToLower lang) R =
      true := by
    rw [hR]
    unfold rowMatches
    simp [hecho]
  have hsel1 : selectByHashLang digest D1 msg lang = [R] := by
    unfold selectByHashLang
    rw [hD1]
    dsimp only
    rw [List.filter_append]
    unfold selectByHashLang at hmiss
    rw [hmiss]
    simp [hrm]
  set updFn : CacheRow → CacheRow := fun r =>
    if r.id = R.id then
      { r with use_count := r.use_count + 1, updated_at := now2 }
    else r with hupd
  have hget2 : getTranslationFromHistory digest D1 now2 msg lang =
      (some R,
        { D1 with
          translation_history := D1.translation_history.map updFn }) := by
    unfold getTranslationFromHistory
    rw [hsel1]
    rfl
  have hp2 : translate digest false D1 now2 reply2 msg lang none none =
      (Except.ok
        { original_message := R.original_message
          translated_message := R.translated_message
          detected_language := jsOrElse R.detected_language
            ("unknown".toList)
          from_cache := true },
        { D1 with
          translation_history := D1.translation_history.map updFn }) := by
    unfold translate
    rw [hget2]
  have hpred : ∀ r,
      rowMatches (hashMessage digest msg) (jsToLower lang) (updFn r) =
      rowMatches (hashMessage digest msg) (jsToLower lang) r := by
    intro r
    rw [hupd]
    by_cases h : r.id = R.id <;> simp [h, rowMatches]
  have hsel2 : selectByHashLang digest
      { D1 with
        translation_history := D1.translation_history.map updFn } msg
      lang = [updFn R] := by
    unfold selectByHashLang
    dsimp only
    rw [filter_map_of_pred _ updFn hpred]
    have hflt : List.filter
        (rowMatches (hashMessage digest msg) (jsToLower lang))
        D1.translation_history = [R] := hsel1
    rw [hflt]
    rfl
  have hupdR : updFn R =
      { R with use_count := R.use_count + 1, updated_at := now2 } := by
    rw [hupd]
    simp
  dsimp only
  rw [hp1]
  dsimp only
  rw [hp2]
  refine ⟨⟨res, rfl, modelClient_ok_from_cache hok⟩, ⟨_, rfl, rfl⟩,
    1, ?_, ?_⟩
  · rw [hsel1, hR]
    rfl
  · rw [hsel2, hupdR, hR]
    rfl

/-- The unfenced echo reply used by the C1 witness. -/
def hiReply : JStr :=
  ("\x7b\"original_message\": \"hi\", \"translated_message\": \"hola\", \"detected_language\": \"english\"\x7d").toList

/-- Witness for C1 against the empty store with the echo reply. -/
theorem C1_translate_twice_witness :
    selectByHashLang (fun s => s) emptyDB ("hi".toList)
      ("english".toList) = [] ∧
    modelClient (some hiReply) ("hi".toList) =
      Except.ok
        { original_message := "hi".toList
          translated_message := "hola".toList
          detected_language := "english".toList
          from_cache := false } ∧
    hashMessage (fun s => s)
        (TranslationResult.original_message
          { original_message := "hi".toList
            translated_message := "hola".toList
            detected_language := "english".toList
            from_cache := false }) =
      hashMessage (fun s => s) ("hi".toList) ∧
    (let p1 := translate (fun s => s) false emptyDB 1 (some hiReply)
      ("hi".toList) ("english".toList) none none
    let p2 := translate (fun s => s) false p1.2 2 none ("hi".toList)
      ("english".toList) none none
    (∃ r1, p1.1 = Except.ok r1 ∧ r1.from_cache = false) ∧
    (∃ r2, p2.1 = Except.ok r2 ∧ r2.from_cache = true) ∧
    (∃ n,
      (selectByHashLang (fun s => s) p1.2 ("hi".toList)
          ("english".toList)).map CacheRow.use_count = [n] ∧
      (selectByHashLang (fun s => s) p2.2 ("hi".toList)
          ("english".toList)).map CacheRow.use_count = [n + 1])) :=
  ⟨rfl, rfl, rfl,
    C1_translate_twice (fun s => s) emptyDB 1 2 (some hiReply) none
      ("hi".toList) ("english".toList)
      { original_message := "hi".toList
        translated_message := "hola".toList
        detected_language := "english".toList
        from_cache := false } rfl rfl rfl⟩

/-! ## C5: key uniqueness across sequential executions -/

/-- Key uniqueness seen through the key projection. -/
theorem keyUnique_iff_pairwise_map (db : DB) :
    KeyUnique db ↔
      (db.translation_history.map rowKey).Pairwise (fun a b => a ≠ b) := by
  unfold KeyUnique
  exact (List.pairwise_map).symm

/-- Key uniqueness transports along states with the same key column. -/
theorem keyUnique_of_map_rowKey_eq {db db2 : DB}
    (h : db2.translation_history.map rowKey =
      db.translation_history.map rowKey)
    (hk : KeyUnique db) : KeyUnique db2 :=
  (keyUnique_iff_pairwise_map db2).mpr
    (h ▸ (keyUnique_iff_pairwise_map db).mp hk)

/-- The lookup preserves key uniqueness. -/
theorem lookup_preserves_keyUnique (digest : JStr → JStr) (db : DB)
    (now : Nat) (msg lang : JStr) (hk : KeyUnique db) :
    KeyUnique ((getTranslationFromHistory digest db now msg lang).2) :=
  keyUnique_of_map_rowKey_eq
    (lookup_frame digest db now msg lang).2.2.2.2.2.1 hk

/-- The save preserves key uniqueness: the update branch maps the table
through a key-preserving update, and the insert branch appends a row
whose key, by the emptiness of the existence check, no stored row
carries. -/
theorem save_preserves_keyUnique (digest : JStr → JStr) (db : DB)
    (now : Nat) (o l d t : JStr) (u1 u2 : Option JStr)
    (hk : KeyUnique db) :
    KeyUnique ((saveTranslationToHistory digest db now o l d t u1 u2).2) := by
  cases hchk : saveExistingCheck digest db o l with
  | nil =>
    have hth := save_insert_th digest db now o l d t u1 u2 hchk
    have hchk2 : List.filter
        (rowMatches (hashMessage digest o) (jsToLower l))
        db.translation_history = [] := hchk
    unfold KeyUnique
    rw [hth, List.pairwise_append]
    refine ⟨hk, List.pairwise_singleton _ _, ?_⟩
    intro a ha b hb
    simp only [List.mem_singleton] at hb
    subst hb
    intro hkeyeq
    have hfa := List.filter_eq_nil_iff.mp hchk2 a ha
    apply hfa
    unfold rowMatches
    rw [decide_eq_true_eq]
    unfold rowKey at hkeyeq
    exact ⟨(Prod.ext_iff.mp hkeyeq).1, (Prod.ext_iff.mp hkeyeq).2⟩
  | cons e0 es =>
    have hth := save_update_th digest db now o l d t u1 u2 e0 es hchk
    refine keyUnique_of_map_rowKey_eq ?_ hk
    rw [hth, List.map_map]
    refine List.map_congr_left ?_
    intro r _
    by_cases h : r.id = e0.id <;> simp [h, rowKey]

/-- The orchestrator preserves key uniqueness: its state effect is that
of the lookup, of nothing, or of the save. -/
theorem translate_preserves_keyUnique (digest : JStr → JStr)
    (st : Bool) (db : DB) (now : Nat) (reply : Option JStr)
    (msg lang : JStr) (u1 u2 : Option JStr) (hk : KeyUnique db) :
    KeyUnique ((translate digest st db now reply msg lang u1 u2).2) := by
  unfold translate
  cases hget : getTranslationFromHistory digest db now msg lang with
  | mk o db1 =>
    have hdb1 : db1 = (getTranslationFromHistory digest db now msg lang).2 := by
      rw [hget]
    cases o with
    | some cached =>
      dsimp only
      rw [hdb1]
      exact lookup_preserves_keyUnique digest db now msg lang hk
    | none =>
      have hdb : db1 = db := by
        have h1 : (getTranslationFromHistory digest db now msg lang).1 =
            none := by rw [hget]
        rw [hdb1]
        exact (lookup_miss_char h1).2
      cases hmc : modelClient reply msg with
      | error e => dsimp only; rw [hdb]; exact hk
      | ok r =>
        cases st with
        | true => dsimp only; rw [hdb]; exact hk
        | false =>
          dsimp only
          rw [hdb]
          exact save_preserves_keyUnique digest db now
            r.original_message lang r.detected_language
            r.translated_message u1 u2 hk

/-- Every store operation preserves key uniqueness. -/
theorem applyOp_preserves_keyUnique (digest : JStr → JStr) (db : DB)
    (op : StoreOp) (hk : KeyUnique db) :
    KeyUnique (applyOp digest db op) := by
  cases op with
  | lookup now m l => exact lookup_preserves_keyUnique digest db now m l hk
  | save now o l d t u1 u2 =>
    exact save_preserves_keyUnique digest db now o l d t u1 u2 hk
  | saveUser now u n =>
    exact keyUnique_of_map_rowKey_eq
      (by
        unfold applyOp
        rw [(saveDiscordUser_frame db now u n).1]) hk
  | translateReq st now r m l u1 u2 =>
    exact translate_preserves_keyUnique digest st db now r m l u1 u2 hk
  | deleteUser u => exact keyUnique_of_map_rowKey_eq rfl hk
  | cleanOld c =>
    unfold KeyUnique at hk ⊢
    unfold applyOp cleanOldTranslations
    exact hk.sublist (List.filter_sublist _)

/-- A fold of operations preserves key uniqueness. -/
theorem foldl_preserves_keyUnique (digest : JStr → JStr)
    (ops : List StoreOp) :
    ∀ db : DB, KeyUnique db →
      KeyUnique (ops.foldl (applyOp digest) db) := by
  induction ops with
  | nil => intro db hk; exact hk
  | cons op rest ih =>
    intro db hk
    exact ih (applyOp digest db op)
      (applyOp_preserves_keyUnique digest db op hk)

/-- C5 amended: every state reachable by a sequential run of store
operations from the empty store carries at most one cache row per hash
and language pair, repeated saves of an equivalent message and language
updating the one row in place; but this is maintained by the
check-then-act logic of the save, the declared schema carrying only a
non-unique index on the pair. -/
theorem C5_sequential_uniqueness (digest : JStr → JStr)
    (ops : List StoreOp) :
    KeyUnique (runOps digest ops) ∧
    (∀ idx ∈ translationHistoryIndexes,
      idx.columns = ["original_message_hash", "target_language"] →
      idx.unique = false) := by
  constructor
  · exact foldl_preserves_keyUnique digest ops emptyDB
      (List.Pairwise.nil)
  · decide

/-- Witness for the amended C5 on a two-save run. -/
theorem C5_sequential_uniqueness_witness :
    KeyUnique (runOps (fun s => s)
      [StoreOp.save 1 ("a".toList) ("l".toList) ("d".toList)
        ("t".toList) none none,
       StoreOp.save 2 ("a".toList) ("l".toList) ("e".toList)
        ("u".toList) none none]) ∧
    (∀ idx ∈ translationHistoryIndexes,
      idx.columns = ["original_message_hash", "target_language"] →
      idx.unique = false) :=
  C5_sequential_uniqueness (fun s => s)
    [StoreOp.save 1 ("a".toList) ("l".toList) ("d".toList) ("t".toList)
      none none,
     StoreOp.save 2 ("a".toList) ("l".toList) ("e".toList) ("u".toList)
      none none]

/-- Counterexample to C5 as stated: the declared schema of the cache
table carries no uniqueness constraint on the hash and language pair
(its pair index is non-unique), and the check-then-act save is not
protected by one: interleaving two saves so that the second write phase
acts on the stale, empty existence check of the first produces a state
with two rows of the same key. -/
theorem C5_counterexample :
    (¬ ∃ idx ∈ translationHistoryIndexes,
      idx.columns = ["original_message_hash", "target_language"] ∧
      idx.unique = true) ∧
    (let chk := saveExistingCheck (fun s => s) emptyDB ("a".toList)
      ("l".toList)
    let db1 := (saveGivenCheck (fun s => s) emptyDB 1 ("a".toList)
      ("l".toList) ("d".toList) ("t".toList) none none chk).2
    let db2 := (saveGivenCheck (fun s => s) db1 2 ("a".toList)
      ("l".toList) ("d".toList) ("t".toList) none none chk).2
    db2.translation_history.map rowKey =
      [("a".toList, "l".toList), ("a".toList, "l".toList)] ∧
    ¬ KeyUnique db2) := by
  refine ⟨by decide, rfl, ?_⟩
  intro h
  exact (List.pairwise_cons.mp h).1 _ (List.mem_singleton_self _) rfl

end DiscordTranslator
